import Mathlib

/-!
Verification development for the `fancy_grocery_list` repository.

The Python modules under `src/fancy_grocery_list/` are shallowly embedded as
executable Lean definitions:

* `models.py`    → the structures `RawIngredient`, `ProcessedIngredient`,
                   `RecipeData`, `GrocerySession` (plus `Staple` / `PantryItem`
                   from `staples.py` / `pantry.py`);
* `processor.py` → `extract_json`, `jsonLoads` (a model of Python's
                   `json.loads`), `parseItem` (a model of pydantic validation
                   of one `ProcessedIngredient`), `parseItems`,
                   `consolidateData` and `processResponse` (the part of
                   `process` that runs on the model's response text);
* `formatter.py` → `format_grocery_list` and its pieces;
* `pantry.py`    → `autoMark`, `promptedIngredients`, `run_pantry_check`,
                   `PantryManager.add` / `names`;
* `session.py`   → `_make_id`, `SessionManager.save` / `new` over a pure
                   `Store` that stands for the on-disk session directory;
* `cli.py`       → `_process_all`, `recipe_remove`, `item_remove`,
                   `item_add`, `recipe_add_finish`.

Interactive input is modelled as an explicit list of answer strings, the
LLM call as an explicit `Consolidator` function argument, and the session
directory as an association list keyed by session id.  Python `datetime`
values are modelled abstractly by their ISO rendering (`DateTimeIso`), and
the `float` field `scale` by an exact rational.
-/

namespace FancyGroceryList

/-! ### Data model (`models.py`) -/

/-- `models.RawIngredient`: one unprocessed ingredient mention. -/
structure RawIngredient where
  text : String
  recipe_title : String
  recipe_url : String
deriving DecidableEq, Repr

/-- `models.ProcessedIngredient`.  The Python field `section` is a Lean
keyword, so it is embedded as `sectionName`.  `confirmed_have` is the
`Optional[bool]` tri-state (`none` = unknown). -/
structure ProcessedIngredient where
  name : String
  quantity : String
  sectionName : String
  raw_sources : List String
  confirmed_have : Option Bool
deriving DecidableEq, Repr

/-- Python `datetime` values are modelled abstractly by their ISO-8601
rendering, which pydantic serializes and parses back verbatim (value-wise). -/
structure DateTimeIso where
  iso : String
deriving DecidableEq, Repr

/-- `models.RecipeData`.  The Python `float` field `scale` is modelled as an
exact rational; the code only ever compares it with `1.0` and renders it into
a text tag, it performs no float arithmetic. -/
structure RecipeData where
  title : String
  url : String
  raw_ingredients : List String
  scale : Rat
deriving DecidableEq, Repr

/-- `models.GrocerySession`. -/
structure GrocerySession where
  version : Int
  id : String
  name : Option String
  created_at : DateTimeIso
  updated_at : DateTimeIso
  recipes : List RecipeData
  extra_items : List RawIngredient
  processed_ingredients : List ProcessedIngredient
  finalized : Bool
  output_path : Option String
deriving DecidableEq, Repr

/-- `staples.Staple`. -/
structure Staple where
  name : String
  quantity : String
deriving DecidableEq, Repr

/-- `PantryItem` (referenced from `pantry.py`; a `{name, quantity}` record
like `Staple`). -/
structure PantryItem where
  name : String
  quantity : String
deriving DecidableEq, Repr

/-- `processor.ProcessorError`, carrying the formatted message string. -/
structure ProcessorError where
  msg : String
deriving DecidableEq, Repr

/-! ### Formatter (`formatter.py`) -/

/-- The resolved bucket of one ingredient: its own `section` when that is in
`store_sections`, otherwise the catch-all `"Other"`
(`formatter.py` line 10). -/
def resolveSection (store_sections : List String) (i : ProcessedIngredient) : String :=
  if i.sectionName ∈ store_sections then i.sectionName else "Other"

/-- The `by_section[s]` bucket built by the grouping loop: the ingredients
resolving to `s`, in arrival order. -/
def sectionBucket (ingredients : List ProcessedIngredient) (store_sections : List String)
    (s : String) : List ProcessedIngredient :=
  ingredients.filter (fun i => resolveSection store_sections i == s)

/-- `"-" * len(section)`. -/
def dashes (s : String) : String :=
  String.mk (List.replicate s.length '-')

/-- The checklist entry `f"[ ] {ingredient.quantity} {ingredient.name}"`. -/
def entryLine (i : ProcessedIngredient) : String :=
  "[ ] " ++ i.quantity ++ " " ++ i.name

/-- The lines contributed by one enumerated section: nothing when its bucket
is empty (`if section not in by_section: continue`), otherwise the
`f"\n{section}"` header, the dashes, and one entry per bucketed ingredient. -/
def sectionLines (ingredients : List ProcessedIngredient) (store_sections : List String)
    (s : String) : List String :=
  if sectionBucket ingredients store_sections s = [] then []
  else ("\n" ++ s) :: dashes s ::
    (sectionBucket ingredients store_sections s).map entryLine

/-- All lines accumulated by the output loop, iterating the enumerated
sections in order. -/
def format_lines (ingredients : List ProcessedIngredient) (store_sections : List String) :
    List String :=
  (store_sections.map (sectionLines ingredients store_sections)).flatten

/-- Python `str.strip()` whitespace test (ASCII whitespace; the inputs here
are ASCII). -/
def isPyWs (c : Char) : Bool :=
  c == ' ' || c == '\t' || c == '\n' || c == '\r'

/-- Python `str.strip()`: drop leading and trailing whitespace. -/
def pyStrip (s : String) : String :=
  String.mk (((s.toList.dropWhile isPyWs).reverse.dropWhile isPyWs).reverse)

/-- `formatter.format_grocery_list`: group by resolved section, emit the
enumerated sections in order, join with newlines and strip.  The `Config`
argument is represented by its `store_sections` field, the only one used. -/
def format_grocery_list (ingredients : List ProcessedIngredient)
    (store_sections : List String) : String :=
  pyStrip (String.intercalate "\n" (format_lines ingredients store_sections))

/-- `config.Config.store_sections` default value (`config.py`). -/
def defaultStoreSections : List String :=
  ["Produce", "Meat & Seafood", "Dairy & Eggs", "Bakery & Bread",
   "Pantry & Dry Goods", "Canned & Jarred Goods", "Frozen",
   "Spices & Seasonings", "Oils & Condiments", "Beverages", "Other"]

/-! ### JSON values and a model of Python's `json.loads`

`processor.process` feeds the model's response text through `_extract_json`
and `json.loads`.  JSON numbers are modelled as exact rationals tagged with
whether the source token would parse to a Python `float` (fraction or
exponent present) rather than an `int`. -/

inductive Json where
  | null
  | bool (b : Bool)
  | num (isFloat : Bool) (val : Rat)
  | str (s : String)
  | arr (elems : List Json)
  | obj (fields : List (String × Json))

/-- JSON whitespace (the only whitespace `json.loads` skips). -/
def jsonWs (c : Char) : Bool :=
  c == ' ' || c == '\t' || c == '\n' || c == '\r'

def skipWs (cs : List Char) : List Char :=
  cs.dropWhile jsonWs

def hexDigitVal (c : Char) : Option Nat :=
  let n := c.toNat
  if 48 ≤ n ∧ n ≤ 57 then some (n - 48)
  else if 97 ≤ n ∧ n ≤ 102 then some (n - 87)
  else if 65 ≤ n ∧ n ≤ 70 then some (n - 55)
  else none

def parseHex4 (cs : List Char) : Option (Nat × List Char) :=
  match cs with
  | a :: b :: c :: d :: rest =>
    match hexDigitVal a, hexDigitVal b, hexDigitVal c, hexDigitVal d with
    | some x, some y, some z, some w => some (((x * 16 + y) * 16 + z) * 16 + w, rest)
    | _, _, _, _ => none
  | _ => none

def escChar (e : Char) : Option Char :=
  if e == '"' then some '"'
  else if e == '\\' then some '\\'
  else if e == '/' then some '/'
  else if e == 'b' then some (Char.ofNat 8)
  else if e == 'f' then some (Char.ofNat 12)
  else if e == 'n' then some '\n'
  else if e == 'r' then some '\r'
  else if e == 't' then some '\t'
  else none

/-- The body of a JSON string (after the opening quote), returning the
decoded characters and the remainder after the closing quote.  Surrogate
pairs in `\-u` escapes are combined; a lone surrogate (which Python can hold
in a `str` but Lean cannot hold in a `Char`) maps to U+FFFD.  Unescaped
control characters are rejected, as in Python's strict mode. -/
def parseJsonString : Nat → List Char → Option (List Char × List Char)
  | 0, _ => none
  | _ + 1, [] => none
  | fuel + 1, c :: cs =>
    if c == '"' then some ([], cs)
    else if c == '\\' then
      match cs with
      | [] => none
      | e :: cs' =>
        if e == 'u' then
          match parseHex4 cs' with
          | none => none
          | some (u, rest1) =>
            if 0xD800 ≤ u ∧ u ≤ 0xDBFF then
              match rest1 with
              | '\\' :: 'u' :: rest2 =>
                match parseHex4 rest2 with
                | some (v, rest3) =>
                  if 0xDC00 ≤ v ∧ v ≤ 0xDFFF then
                    (parseJsonString fuel rest3).map
                      (fun p => (Char.ofNat (0x10000 + (u - 0xD800) * 0x400 + (v - 0xDC00)) :: p.1, p.2))
                  else (parseJsonString fuel rest1).map (fun p => (Char.ofNat 0xFFFD :: p.1, p.2))
                | none => (parseJsonString fuel rest1).map (fun p => (Char.ofNat 0xFFFD :: p.1, p.2))
              | _ => (parseJsonString fuel rest1).map (fun p => (Char.ofNat 0xFFFD :: p.1, p.2))
            else if 0xDC00 ≤ u ∧ u ≤ 0xDFFF then
              (parseJsonString fuel rest1).map (fun p => (Char.ofNat 0xFFFD :: p.1, p.2))
            else
              (parseJsonString fuel rest1).map (fun p => (Char.ofNat u :: p.1, p.2))
        else
          match escChar e with
          | some ch => (parseJsonString fuel cs').map (fun p => (ch :: p.1, p.2))
          | none => none
    else if c.toNat < 0x20 then none
    else (parseJsonString fuel cs).map (fun p => (c :: p.1, p.2))

def digitsToNat (ds : List Char) : Nat :=
  ds.foldl (fun n c => n * 10 + (c.toNat - 48)) 0

def pow10 (n : Nat) : Rat :=
  (10 : Rat) ^ n

def applyExp (q : Rat) (e : Int) : Rat :=
  if 0 ≤ e then q * (10 : Rat) ^ e.toNat else q / (10 : Rat) ^ (-e).toNat

def parseExpAfterMarker (cs : List Char) : Option (Int × List Char) :=
  let (sgn, cs1) : Int × List Char :=
    match cs with
    | '+' :: r => (1, r)
    | '-' :: r => (-1, r)
    | _ => (1, cs)
  let ds := cs1.takeWhile Char.isDigit
  if ds.isEmpty then none
  else some (sgn * (digitsToNat ds : Int), cs1.drop ds.length)

/-- Returns `(hadExponent, value, rest)`; fails only when an exponent marker
is present but malformed. -/
def parseExp (cs : List Char) : Option (Bool × Int × List Char) :=
  match cs with
  | 'e' :: rest => (parseExpAfterMarker rest).map (fun p => (true, p.1, p.2))
  | 'E' :: rest => (parseExpAfterMarker rest).map (fun p => (true, p.1, p.2))
  | _ => some (false, 0, cs)

/-- A JSON number token: optional minus, integer part without leading
zeros, optional fraction, optional exponent.  The token is a Python `float`
exactly when a fraction or exponent is present. -/
def parseNumber (cs : List Char) : Option (Json × List Char) :=
  let (neg, cs1) : Bool × List Char :=
    match cs with
    | '-' :: rest => (true, rest)
    | _ => (false, cs)
  let intDigits := cs1.takeWhile Char.isDigit
  let cs2 := cs1.drop intDigits.length
  if intDigits.isEmpty then none
  else if 2 ≤ intDigits.length ∧ intDigits.headD '0' == '0' then none
  else
    let intVal : Nat := digitsToNat intDigits
    match cs2 with
    | '.' :: afterDot =>
      let fracDigits := afterDot.takeWhile Char.isDigit
      if fracDigits.isEmpty then none
      else
        let cs3 := afterDot.drop fracDigits.length
        match parseExp cs3 with
        | none => none
        | some (_, e, cs4) =>
          let base : Rat := (intVal : Rat) + (digitsToNat fracDigits : Rat) / pow10 fracDigits.length
          let v := applyExp base e
          some (.num true (if neg then -v else v), cs4)
    | _ =>
      match parseExp cs2 with
      | none => none
      | some (hadExp, e, cs4) =>
        let v := applyExp (intVal : Rat) e
        some (.num hadExp (if neg then -v else v), cs4)

mutual

/-- One JSON value starting exactly at `cs`. -/
def parseVal : Nat → List Char → Option (Json × List Char)
  | 0, _ => none
  | fuel + 1, cs =>
    match cs with
    | 'n' :: 'u' :: 'l' :: 'l' :: rest => some (.null, rest)
    | 't' :: 'r' :: 'u' :: 'e' :: rest => some (.bool true, rest)
    | 'f' :: 'a' :: 'l' :: 's' :: 'e' :: rest => some (.bool false, rest)
    | '"' :: rest =>
      match parseJsonString (rest.length + 1) rest with
      | some (content, rest') => some (.str (String.mk content), rest')
      | none => none
    | '[' :: rest =>
      (match skipWs rest with
       | ']' :: rest2 => some (.arr [], rest2)
       | rest1 =>
         match parseElems fuel rest1 with
         | some (elems, rest2) => some (.arr elems, rest2)
         | none => none)
    | '{' :: rest =>
      (match skipWs rest with
       | '}' :: rest2 => some (.obj [], rest2)
       | rest1 =>
         match parseMembers fuel rest1 with
         | some (fields, rest2) => some (.obj fields, rest2)
         | none => none)
    | _ => parseNumber cs

/-- The elements of a non-empty array body, up to and including `]`. -/
def parseElems : Nat → List Char → Option (List Json × List Char)
  | 0, _ => none
  | fuel + 1, cs =>
    match parseVal fuel (skipWs cs) with
    | none => none
    | some (v, rest) =>
      match skipWs rest with
      | ',' :: rest2 =>
        (match parseElems fuel rest2 with
         | some (vs, rest3) => some (v :: vs, rest3)
         | none => none)
      | ']' :: rest2 => some ([v], rest2)
      | _ => none

/-- The members of a non-empty object body, up to and including the closing
brace. -/
def parseMembers : Nat → List Char → Option (List (String × Json) × List Char)
  | 0, _ => none
  | fuel + 1, cs =>
    match skipWs cs with
    | '"' :: rest =>
      (match parseJsonString (rest.length + 1) rest with
       | none => none
       | some (key, rest1) =>
         match skipWs rest1 with
         | ':' :: rest2 =>
           (match parseVal fuel (skipWs rest2) with
            | none => none
            | some (v, rest3) =>
              match skipWs rest3 with
              | ',' :: rest4 =>
                (match parseMembers fuel rest4 with
                 | some (ms, rest5) => some ((String.mk key, v) :: ms, rest5)
                 | none => none)
              | '}' :: rest4 => some ([(String.mk key, v)], rest4)
              | _ => none)
         | _ => none)
    | _ => none

end

/-- Model of `json.loads`: exactly one value, surrounded by optional
whitespace.  The fuel bound exceeds the number of parser steps possible on
the input (each pair of steps consumes at least one character). -/
def jsonLoads (text : String) : Option Json :=
  match parseVal (2 * text.length + 4) (skipWs text.toList) with
  | some (v, rest) => if (skipWs rest).isEmpty then some v else none
  | none => none

/-- `processor._extract_json`: the regex `\[.*\]` with `DOTALL` matches from
the first `[` to the last `]` when the latter comes strictly later;
otherwise the text is returned unchanged. -/
def extract_json (text : String) : String :=
  let cs := text.toList
  match cs.findIdx? (fun c => c == '['), cs.reverse.findIdx? (fun c => c == ']') with
  | some i, some k =>
    let j := cs.length - 1 - k
    if i < j then String.mk ((cs.drop i).take (j - i + 1)) else text
  | _, _ => text

/-! ### Validation of the parsed response (`processor.process`, lines 48–51) -/

/-- Key lookup in a parsed JSON object.  `json.loads` builds a `dict`, where
a duplicated key keeps the last value. -/
def lookupLast (fields : List (String × Json)) (key : String) : Option Json :=
  match fields with
  | [] => none
  | (k, v) :: rest =>
    match lookupLast rest key with
    | some v' => some v'
    | none => if k == key then some v else none

def asStr : Json → Option String
  | .str s => some s
  | _ => none

def asStrList : Json → Option (List String)
  | .arr es => es.mapM asStr
  | _ => none

/-- pydantic v2 lax-mode `bool` coercion: booleans, the documented yes/no
strings (case-insensitive), and numeric 0/1. -/
def asLaxBool : Json → Option Bool
  | .bool b => some b
  | .str s =>
    let t := s.toLower
    if t ∈ ["true", "t", "yes", "y", "on", "1"] then some true
    else if t ∈ ["false", "f", "no", "n", "off", "0"] then some false
    else none
  | .num _ v => if v = 1 then some true else if v = 0 then some false else none
  | _ => none

def asOptBool : Json → Option (Option Bool)
  | .null => some none
  | j => (asLaxBool j).map some

/-- pydantic validation of one array element: `ProcessedIngredient(**item)`.
A non-object raises `TypeError` (`**` needs a mapping); an object must carry
`name`/`quantity`/`section` as strings and `raw_sources` as a list of
strings; `confirmed_have` is optional with default `None`; extra keys are
ignored (pydantic v2 default).  Note there is no constraint on
`raw_sources` beyond its element type — the empty list validates. -/
def parseItem (j : Json) : Option ProcessedIngredient :=
  match j with
  | .obj fields =>
    match lookupLast fields "name", lookupLast fields "quantity",
          lookupLast fields "section", lookupLast fields "raw_sources" with
    | some jn, some jq, some js, some jr =>
      match asStr jn, asStr jq, asStr js, asStrList jr with
      | some n, some q, some s, some rs =>
        (match lookupLast fields "confirmed_have" with
         | none => some ⟨n, q, s, rs, none⟩
         | some jc =>
           match asOptBool jc with
           | some cb => some ⟨n, q, s, rs, cb⟩
           | none => none)
      | _, _, _, _ => none
    | _, _, _, _ => none
  | _ => none

/-- Stand-in for the exception text produced when one item fails validation
(`TypeError` / pydantic `ValidationError`).  The claim-relevant fact,
visible in `processor.py` line 51, is that this branch interpolates only
the exception — never `raw_text`. -/
def itemErrorMsg (j : Json) : String :=
  match j with
  | .obj _ => "validation error for ProcessedIngredient"
  | _ => "argument after ** must be a mapping"

/-- `[ProcessedIngredient(**item) for item in data]`: the first failing item
aborts the whole call with its exception; nothing is returned. -/
def parseItems : List Json → Except String (List ProcessedIngredient)
  | [] => .ok []
  | j :: js =>
    match parseItem j with
    | none => .error (itemErrorMsg j)
    | some pi =>
      match parseItems js with
      | .error e => .error e
      | .ok rest => .ok (pi :: rest)

/-- `for item in data` over an arbitrary parsed value.  A non-list `data` is
only reachable when the response held no `[...]` span: iterating a dict
yields its keys and a str its 1-character strings, which fail as `**item`
arguments unless the iteration is empty; other values are not iterable. -/
def consolidateData : Json → Except String (List ProcessedIngredient)
  | .arr items => parseItems items
  | .obj fields => if fields.isEmpty then .ok [] else .error "argument after ** must be a mapping"
  | .str s => if s.isEmpty then .ok [] else .error "argument after ** must be a mapping"
  | _ => .error "object is not iterable"

/-- Stand-in for the position-dependent `json.JSONDecodeError` text; the
claim-relevant content of this branch is the raw response appended after
it (`processor.py` lines 44–46). -/
def jsonDecodeErrorMsg : String := "Expecting value"

/-- The response-handling tail of `processor.process` (lines 40–51): from
the model's response text to the returned list or raised `ProcessorError`. -/
def processResponse (raw_text : String) : Except ProcessorError (List ProcessedIngredient) :=
  match jsonLoads (extract_json raw_text) with
  | none =>
    .error ⟨"Failed to parse LLM response as JSON: " ++ jsonDecodeErrorMsg ++
            "\n\nRaw response:\n" ++ raw_text⟩
  | some data =>
    match consolidateData data with
    | .ok items => .ok items
    | .error e => .error ⟨"LLM returned unexpected ingredient format: " ++ e⟩

/-! ### Substring search (used to state "the error carries the raw response") -/

def charsStartsWith : List Char → List Char → Bool
  | _, [] => true
  | [], _ :: _ => false
  | c :: cs, d :: ds => c == d && charsStartsWith cs ds

def charsContains : List Char → List Char → Bool
  | [], needle => needle.isEmpty
  | c :: t, needle => charsStartsWith (c :: t) needle || charsContains t needle

def strContains (hay needle : String) : Bool :=
  charsContains hay.toList needle.toList

/-! ### Pantry (`pantry.py`) -/

/-- `PantryManager.add`: append `{name, quantity}` unless the name is
already present; the name is stored verbatim, with no normalization. -/
def pantryAdd (items : List PantryItem) (name quantity : String) : List PantryItem :=
  if items.any (fun p => p.name == name) then items else items ++ [⟨name, quantity⟩]

/-- `PantryManager.names`: the stored names (a Python `set`; membership is
all the callers use, so it is modelled as the list of names). -/
def pantryNames (items : List PantryItem) : List String :=
  items.map PantryItem.name

/-- Step 1 of `run_pantry_check` (lines 40–45): when `pantry_names` is
non-empty (Python truthiness of the set; `None` is modelled as `[]`), every
ingredient with `confirmed_have is None` whose name is a member is marked
`True` without prompting. -/
def autoMark (ingredients : List ProcessedIngredient) (pantry_names : List String) :
    List ProcessedIngredient :=
  if pantry_names.isEmpty then ingredients
  else ingredients.map (fun i =>
    if i.confirmed_have = none ∧ i.name ∈ pantry_names then
      { i with confirmed_have := some true } else i)

/-- `to_check` (line 47): the ingredients the interactive loop prompts for. -/
def promptedIngredients (ingredients : List ProcessedIngredient)
    (pantry_names : List String) : List ProcessedIngredient :=
  (autoMark ingredients pantry_names).filter (fun i => i.confirmed_have.isNone)

/-- `answer.strip().lower()` then the y/yes/n/no test of the prompt loop. -/
def answerToBool (a : String) : Option Bool :=
  let t := (pyStrip a).toLower
  if t == "y" ∨ t == "yes" then some true
  else if t == "n" ∨ t == "no" then some false
  else none

/-- The `while True` loop for one ingredient: consume answers until a
recognized yes/no token; `none` when the supplied answers run out (the real
loop would block awaiting more input). -/
def askOne : List String → Option (Bool × List String)
  | [] => none
  | a :: rest =>
    match answerToBool a with
    | some b => some (b, rest)
    | none => askOne rest

/-- The interactive pass: prompt at each still-unknown ingredient in order
(the Python loop mutates the shared records reached through `to_check`;
rebuilding the full list is the functional rendering of that). -/
def promptPass : List ProcessedIngredient → List String →
    Option (List ProcessedIngredient × List String)
  | [], answers => some ([], answers)
  | i :: rest, answers =>
    if i.confirmed_have.isNone then
      match askOne answers with
      | none => none
      | some (b, answers') =>
        (promptPass rest answers').map
          (fun p => ({ i with confirmed_have := some b } :: p.1, p.2))
    else
      (promptPass rest answers).map (fun p => (i :: p.1, p.2))

/-- `pantry.run_pantry_check`, with the user's answers supplied explicitly. -/
def run_pantry_check (ingredients : List ProcessedIngredient)
    (pantry_names : List String) (answers : List String) :
    Option (List ProcessedIngredient) :=
  let marked := autoMark ingredients pantry_names
  let to_check := promptedIngredients ingredients pantry_names
  if to_check.isEmpty then some marked
  else (promptPass marked answers).map Prod.fst

/-! ### Sessions (`session.py`) persisted over a pure store -/

/-- The `~/.grocery_lists` directory: one record per session id plus the
`current.json` pointer. -/
structure Store where
  sessions : List (String × GrocerySession)
  current : Option String
deriving DecidableEq, Repr

/-- Writing `{id}.json`: replace the record with this id, or add it. -/
def overwrite : List (String × GrocerySession) → String → GrocerySession →
    List (String × GrocerySession)
  | [], k, v => [(k, v)]
  | (k', v') :: rest, k, v =>
    if k' = k then (k, v) :: rest else (k', v') :: overwrite rest k v

def storeLookup : List (String × GrocerySession) → String → Option GrocerySession
  | [], _ => none
  | (k', v) :: rest, k => if k' = k then some v else storeLookup rest k

/-- `SessionManager.save`: stamp `updated_at` and write the record; returns
the store plus the session (which Python mutates in place). -/
def SessionManager.save (now : DateTimeIso) (st : Store) (s : GrocerySession) :
    Store × GrocerySession :=
  let s' := { s with updated_at := now }
  ({ st with sessions := overwrite st.sessions s'.id s' }, s')

/-- ASCII reading of the regex class `\w` plus the dash kept by the slug. -/
def isWordChar (c : Char) : Bool :=
  c.isAlphanum || c == '_' || c == '-'

/-- `name.replace(" ", "-")` (single-character replacement). -/
def replaceSpaces (s : String) : String :=
  String.mk (s.toList.map (fun c => if c == ' ' then '-' else c))

/-- `re.sub(r"[^\w-]", "", name.replace(" ", "-")).lower()`. -/
def slugify (name : String) : String :=
  String.mk (((replaceSpaces name).toList.filter isWordChar).map Char.toLower)

/-- `session._make_id`: current date plus slug.  The date is passed in
explicitly; Python's `if name else "session"` treats both `None` and `""`
as absent. -/
def _make_id (date : String) (name : Option String) : String :=
  let suffix := match name with
    | some n => if n.isEmpty then "session" else slugify n
    | none => "session"
  date ++ "-" ++ suffix

/-- `SessionManager.new`: build the session (id from date and name), seed
the staples as `[staple]` extra items, save, and point `current.json` at
it.  The two `_now()` calls inside `new` (creation and the save stamp) are
modelled as the single instant `now`. -/
def SessionManager.new (st : Store) (date : String) (now : DateTimeIso)
    (staples : List Staple) (name : Option String) : GrocerySession × Store :=
  let session : GrocerySession :=
    { version := 1, id := _make_id date name, name := name,
      created_at := now, updated_at := now, recipes := [],
      extra_items := staples.map (fun stp =>
        { text := pyStrip (stp.quantity ++ " " ++ stp.name),
          recipe_title := "[staple]", recipe_url := "" }),
      processed_ingredients := [], finalized := false, output_path := none }
  let (st1, saved) := SessionManager.save now st session
  (saved, { st1 with current := some saved.id })

/-! ### CLI workflows (`cli.py`) -/

/-- The consolidator (`processor.process`) as the CLI sees it: a call that
either returns the validated records or raises `ProcessorError`. -/
def Consolidator : Type :=
  List RawIngredient → Except ProcessorError (List ProcessedIngredient)

/-- Python `str(float)` for the scale tag.  Integral scales render as
Python floats do; the tag text is only ever shipped inside the request to
the model, never inspected. -/
def ratScaleStr (q : Rat) : String :=
  if q.den = 1 then toString q.num ++ ".0"
  else toString q.num ++ "/" ++ toString q.den

/-- The raw lines `_process_all` rebuilds from the whole session: every
recipe line, tagged with its scale when `scale != 1.0`, followed by the
extra items. -/
def all_raw (s : GrocerySession) : List RawIngredient :=
  (s.recipes.map (fun r => r.raw_ingredients.map (fun ing =>
    { text := if r.scale ≠ 1 then "[×" ++ ratScaleStr r.scale ++ "] " ++ ing else ing,
      recipe_title := r.title, recipe_url := r.url }))).flatten ++ s.extra_items

/-- `cli._process_all`: consolidate everything, assign
`processed_ingredients`, save.  When the consolidator raises, nothing is
assigned or saved here — the exception propagates to the caller. -/
def _process_all (consolidate : Consolidator) (now : DateTimeIso) (st : Store)
    (s : GrocerySession) : Except ProcessorError (Store × GrocerySession) :=
  match consolidate (all_raw s) with
  | .error e => .error e
  | .ok pis =>
    let s1 := { s with processed_ingredients := pis }
    .ok (SessionManager.save now st s1)

/-- Outcome of a remove command after the session is loaded. -/
inductive RemoveResult where
  | indexError
  | removed (st : Store) (s : GrocerySession)
  | processingFailed (st : Store) (s : GrocerySession) (e : ProcessorError)
deriving DecidableEq, Repr

/-- The session after `session.recipes.pop(index - 1)` (`cli.py` line 143). -/
def recipeRemoveSession (s : GrocerySession) (index : Int) : GrocerySession :=
  { s with recipes := s.recipes.eraseIdx (index - 1).toNat }

/-- The shared tail of `recipe_remove` and `item_remove` (`cli.py`
lines 146–161 and 257–272, duplicated verbatim in the source): when at
least one recipe or extra item remains, re-consolidate (persisting inside
`_process_all` on success, or saving the stale session on
`ProcessorError`); otherwise clear `processed_ingredients` and save without
any consolidator call. -/
def removeFinish (consolidate : Consolidator) (now : DateTimeIso) (st : Store)
    (s1 : GrocerySession) : RemoveResult :=
  if s1.recipes ≠ [] ∨ s1.extra_items ≠ [] then
    match _process_all consolidate now st s1 with
    | .ok (st', s') => .removed st' s'
    | .error e =>
      let (st', s') := SessionManager.save now st s1
      .processingFailed st' s' e
  else
    let (st', s') := SessionManager.save now st { s1 with processed_ingredients := [] }
    .removed st' s'

/-- `cli.recipe_remove` after the session is loaded (lines 139–161):
validate the 1-based index, pop the recipe, then the shared tail. -/
def recipe_remove (consolidate : Consolidator) (now : DateTimeIso) (st : Store)
    (s : GrocerySession) (index : Int) : RemoveResult :=
  if index < 1 ∨ (s.recipes.length : Int) < index then .indexError
  else removeFinish consolidate now st (recipeRemoveSession s index)

/-- Python `list.remove`: drop the first element equal (structurally, as
pydantic defines `==`) to the target. -/
def removeFirst : List RawIngredient → RawIngredient → List RawIngredient
  | [], _ => []
  | x :: xs, t => if x = t then xs else x :: removeFirst xs t

/-- The `[added manually]` sublist the item commands index into. -/
def manualItems (s : GrocerySession) : List RawIngredient :=
  s.extra_items.filter (fun it => it.recipe_title == "[added manually]")

/-- The session after `session.extra_items.remove(target)` (`cli.py`
lines 253–254).  The `getD` default is unreachable: callers guard the
index against `manualItems`. -/
def itemRemoveSession (s : GrocerySession) (index : Int) : GrocerySession :=
  { s with extra_items :=
      removeFirst s.extra_items ((manualItems s).getD (index - 1).toNat ⟨"", "", ""⟩) }

/-- `cli.item_remove` after the session is loaded (lines 248–272): index
into the `[added manually]` sublist, `list.remove` the target from
`extra_items`, then the shared tail. -/
def item_remove (consolidate : Consolidator) (now : DateTimeIso) (st : Store)
    (s : GrocerySession) (index : Int) : RemoveResult :=
  if index < 1 ∨ ((manualItems s).length : Int) < index then .indexError
  else removeFinish consolidate now st (itemRemoveSession s index)

/-- The session after `session.extra_items.append(...)` in `item_add`
(`cli.py` lines 203–204). -/
def itemAddSession (s : GrocerySession) (name quantity : String) : GrocerySession :=
  { s with extra_items :=
      s.extra_items ++ [⟨pyStrip (quantity ++ " " ++ name), "[added manually]", ""⟩] }

/-- `cli.item_add` after config/session loading (lines 203–213): append the
manual entry, then consolidate; on `ProcessorError` the session — including
the new entry — is still saved, with `processed_ingredients` untouched. -/
def item_add (consolidate : Consolidator) (now : DateTimeIso) (st : Store)
    (s : GrocerySession) (name quantity : String) : Store × GrocerySession :=
  match _process_all consolidate now st (itemAddSession s name quantity) with
  | .ok r => r
  | .error _ => SessionManager.save now st (itemAddSession s name quantity)

/-- The tail of `cli.recipe_add` (lines 94–104), entered with the fetched
recipes already appended to the session: consolidate, and on
`ProcessorError` still save the session with its new recipes. -/
def recipe_add_finish (consolidate : Consolidator) (now : DateTimeIso) (st : Store)
    (s : GrocerySession) : Store × GrocerySession :=
  match _process_all consolidate now st s with
  | .ok r => r
  | .error _ => SessionManager.save now st s

/-! ### Persisted session form

pydantic's `model_dump_json` / `model_validate_json` pair, modelled at the
JSON-tree level; the byte rendering and re-parsing of that tree is the JSON
library's own round-trip and stays outside the embedding. -/

def optStrToJson : Option String → Json
  | none => Json.null
  | some s => Json.str s

def optBoolToJson : Option Bool → Json
  | none => Json.null
  | some b => Json.bool b

def rawIngredientToJson (r : RawIngredient) : Json :=
  .obj [("text", .str r.text), ("recipe_title", .str r.recipe_title),
        ("recipe_url", .str r.recipe_url)]

def rawIngredientFromJson (j : Json) : Option RawIngredient :=
  match j with
  | .obj fields =>
    match lookupLast fields "text", lookupLast fields "recipe_title",
          lookupLast fields "recipe_url" with
    | some jt, some jl, some ju =>
      match asStr jt, asStr jl, asStr ju with
      | some t, some l, some u => some ⟨t, l, u⟩
      | _, _, _ => none
    | _, _, _ => none
  | _ => none

def processedIngredientToJson (i : ProcessedIngredient) : Json :=
  .obj [("name", .str i.name), ("quantity", .str i.quantity),
        ("section", .str i.sectionName),
        ("raw_sources", .arr (i.raw_sources.map Json.str)),
        ("confirmed_have", optBoolToJson i.confirmed_have)]

def recipeDataToJson (r : RecipeData) : Json :=
  .obj [("title", .str r.title), ("url", .str r.url),
        ("raw_ingredients", .arr (r.raw_ingredients.map Json.str)),
        ("scale", .num true r.scale)]

/-- `RecipeData` validation; a missing `scale` takes the pydantic default
`1.0` (the spec's tolerate-older-records rule). -/
def recipeDataFromJson (j : Json) : Option RecipeData :=
  match j with
  | .obj fields =>
    match lookupLast fields "title", lookupLast fields "url",
          lookupLast fields "raw_ingredients" with
    | some jt, some ju, some jr =>
      match asStr jt, asStr ju, asStrList jr with
      | some t, some u, some rs =>
        (match lookupLast fields "scale" with
         | none => some ⟨t, u, rs, 1⟩
         | some (.num _ q) => some ⟨t, u, rs, q⟩
         | some _ => none)
      | _, _, _ => none
    | _, _, _ => none
  | _ => none

def asOptStr : Json → Option (Option String)
  | .null => some none
  | .str s => some (some s)
  | _ => none

def asIntJson : Json → Option Int
  | .num _ q => if q.den = 1 then some q.num else none
  | _ => none

def dateTimeFromJson : Json → Option DateTimeIso
  | .str s => some ⟨s⟩
  | _ => none

def sessionToJson (s : GrocerySession) : Json :=
  .obj [("version", .num false (s.version : Rat)),
        ("id", .str s.id),
        ("name", optStrToJson s.name),
        ("created_at", .str s.created_at.iso),
        ("updated_at", .str s.updated_at.iso),
        ("recipes", .arr (s.recipes.map recipeDataToJson)),
        ("extra_items", .arr (s.extra_items.map rawIngredientToJson)),
        ("processed_ingredients", .arr (s.processed_ingredients.map processedIngredientToJson)),
        ("finalized", .bool s.finalized),
        ("output_path", optStrToJson s.output_path)]

def listFromJson {α : Type} (f : Json → Option α) : Json → Option (List α)
  | .arr es => es.mapM f
  | _ => none

/-- A field with a pydantic default tolerates absence. -/
def withDefault {α : Type} (fields : List (String × Json)) (key : String)
    (dflt : α) (f : Json → Option α) : Option α :=
  match lookupLast fields key with
  | none => some dflt
  | some v => f v

/-- `GrocerySession.model_validate` on a parsed record: `id`, `created_at`
and `updated_at` are required; every other field carries a default.
`ProcessedIngredient` elements revalidate through `parseItem`. -/
def sessionFromJson (j : Json) : Option GrocerySession :=
  match j with
  | .obj fields => do
    let jid ← lookupLast fields "id"
    let id_ ← asStr jid
    let jc ← lookupLast fields "created_at"
    let cAt ← dateTimeFromJson jc
    let ju ← lookupLast fields "updated_at"
    let uAt ← dateTimeFromJson ju
    let version ← withDefault fields "version" 1 asIntJson
    let name ← withDefault fields "name" none asOptStr
    let recipes ← withDefault fields "recipes" [] (listFromJson recipeDataFromJson)
    let extra ← withDefault fields "extra_items" [] (listFromJson rawIngredientFromJson)
    let processed ← withDefault fields "processed_ingredients" [] (listFromJson parseItem)
    let finalized ← withDefault fields "finalized" false asLaxBool
    let outputPath ← withDefault fields "output_path" none asOptStr
    some ⟨version, id_, name, cAt, uAt, recipes, extra, processed, finalized, outputPath⟩
  | _ => none

/-! ## Helper lemmas -/

theorem charsStartsWith_refl (cs : List Char) : charsStartsWith cs cs = true := by
  induction cs with
  | nil => rfl
  | cons c cs ih => simp [charsStartsWith, ih]

theorem charsContains_suffix (pre suf : List Char) :
    charsContains (pre ++ suf) suf = true := by
  induction pre with
  | nil =>
    cases suf with
    | nil => rfl
    | cons c cs => simp [charsContains, charsStartsWith_refl]
  | cons c cs ih => simp [charsContains, ih]

theorem string_toList_append (p s : String) : (p ++ s).toList = p.toList ++ s.toList := by
  cases p
  cases s
  rfl

theorem strContains_suffix (p s : String) : strContains (p ++ s) s = true := by
  unfold strContains
  rw [string_toList_append]
  exact charsContains_suffix _ _

theorem parseItems_error_of_malformed (items : List Json) (j : Json)
    (hj : j ∈ items) (hbad : parseItem j = none) :
    ∃ msg, parseItems items = .error msg := by
  induction items with
  | nil => cases hj
  | cons a rest ih =>
    rcases List.mem_cons.1 hj with heq | hmem
    · subst heq
      exact ⟨itemErrorMsg j, by simp [parseItems, hbad]⟩
    · obtain ⟨msg, hmsg⟩ := ih hmem
      cases hpa : parseItem a with
      | none => exact ⟨itemErrorMsg a, by simp [parseItems, hpa]⟩
      | some pi => exact ⟨msg, by simp [parseItems, hpa, hmsg]⟩

theorem parseItems_length (items : List Json) (l : List ProcessedIngredient)
    (h : parseItems items = .ok l) : l.length = items.length := by
  induction items generalizing l with
  | nil =>
    simp [parseItems] at h
    simp [← h]
  | cons a rest ih =>
    simp only [parseItems] at h
    cases hpa : parseItem a with
    | none => rw [hpa] at h; exact absurd h (by simp)
    | some pi =>
      rw [hpa] at h
      cases hrest : parseItems rest with
      | error e => rw [hrest] at h; exact absurd h (by simp)
      | ok tl =>
        rw [hrest] at h
        have h2 : Except.ok (ε := String) (pi :: tl) = Except.ok l := h
        cases h2
        simp [ih tl hrest]

theorem autoMark_ne (ings : List ProcessedIngredient) (pantry : List String)
    (hne : pantry ≠ []) :
    autoMark ings pantry = ings.map (fun i =>
      if i.confirmed_have = none ∧ i.name ∈ pantry then
        { i with confirmed_have := some true } else i) := by
  unfold autoMark
  rw [if_neg]
  simpa [List.isEmpty_iff] using hne

theorem promptPass_preserves (l : List ProcessedIngredient) (answers : List String)
    (out : List ProcessedIngredient) (rest : List String)
    (h : promptPass l answers = some (out, rest)) (k : Nat) (i : ProcessedIngredient)
    (hk : l[k]? = some i) (hi : i.confirmed_have.isNone = false) :
    out[k]? = some i := by
  induction l generalizing answers out rest k with
  | nil => simp at hk
  | cons a t ih =>
    simp only [promptPass] at h
    by_cases ha : a.confirmed_have.isNone
    · rw [if_pos ha] at h
      cases hask : askOne answers with
      | none => rw [hask] at h; simp at h
      | some p =>
        obtain ⟨b, ans2⟩ := p
        rw [hask] at h
        simp only [] at h
        cases hpp : promptPass t ans2 with
        | none => rw [hpp] at h; simp at h
        | some q =>
          rw [hpp] at h
          simp only [Option.map_some', Option.some.injEq, Prod.mk.injEq] at h
          obtain ⟨hout, -⟩ := h
          cases k with
          | zero =>
            simp at hk
            rw [← hk] at hi
            rw [Option.isNone_iff_eq_none] at ha
            simp [ha] at hi
          | succ k' =>
            simp only [List.getElem?_cons_succ] at hk
            rw [← hout]
            simpa using ih ans2 q.1 q.2 (by simpa using hpp) k' hk
    · rw [if_neg ha] at h
      cases hpp : promptPass t answers with
      | none => rw [hpp] at h; simp at h
      | some q =>
        rw [hpp] at h
        simp only [Option.map_some', Option.some.injEq, Prod.mk.injEq] at h
        obtain ⟨hout, -⟩ := h
        cases k with
        | zero =>
          simp at hk
          rw [← hout, ← hk]
          simp
        | succ k' =>
          simp only [List.getElem?_cons_succ] at hk
          rw [← hout]
          simpa using ih answers q.1 q.2 (by simpa using hpp) k' hk

theorem prompted_not_pantry (ings : List ProcessedIngredient) (pantry : List String)
    (hne : pantry ≠ []) :
    ∀ j ∈ promptedIngredients ings pantry, j.confirmed_have = none ∧ j.name ∉ pantry := by
  intro j hj
  unfold promptedIngredients at hj
  rw [autoMark_ne ings pantry hne] at hj
  obtain ⟨hjmem, hjnone⟩ := List.mem_filter.1 hj
  obtain ⟨i, hi, hfi⟩ := List.mem_map.1 hjmem
  rw [Option.isNone_iff_eq_none] at hjnone
  by_cases hcond : i.confirmed_have = none ∧ i.name ∈ pantry
  · rw [if_pos hcond] at hfi
    rw [← hfi] at hjnone
    simp at hjnone
  · rw [if_neg hcond] at hfi
    subst hfi
    refine ⟨hjnone, fun hmem => hcond ⟨hjnone, hmem⟩⟩

theorem mapM_map_of_roundtrip {α β : Type} (f : β → Option α) (g : α → β) (l : List α)
    (h : ∀ a ∈ l, f (g a) = some a) : (l.map g).mapM f = some l := by
  induction l with
  | nil => rfl
  | cons a t ih =>
    rw [List.map_cons, List.mapM_cons, h a (by simp), ih (fun b hb => h b (by simp [hb]))]
    rfl

theorem mapMloop_map_of_roundtrip {α β : Type} (f : β → Option α) (g : α → β) (l : List α)
    (acc : List α) (h : ∀ a ∈ l, f (g a) = some a) :
    List.mapM.loop f (l.map g) acc = some (acc.reverse ++ l) := by
  induction l generalizing acc with
  | nil => simp [List.mapM.loop]
  | cons a t ih =>
    rw [List.map_cons]
    simp only [List.mapM.loop]
    rw [h a (by simp)]
    show List.mapM.loop f (t.map g) (a :: acc) = some (acc.reverse ++ a :: t)
    rw [ih (a :: acc) (fun b hb => h b (by simp [hb]))]
    simp

theorem asStrList_roundtrip (rs : List String) :
    asStrList (Json.arr (rs.map Json.str)) = some rs := by
  unfold asStrList
  exact mapM_map_of_roundtrip asStr Json.str rs (fun a _ => rfl)

theorem asOptStr_roundtrip (o : Option String) : asOptStr (optStrToJson o) = some o := by
  cases o <;> rfl

theorem asOptBool_roundtrip (o : Option Bool) : asOptBool (optBoolToJson o) = some o := by
  cases o <;> rfl

theorem rawIngredient_roundtrip (r : RawIngredient) :
    rawIngredientFromJson (rawIngredientToJson r) = some r := rfl

theorem parseItem_canonical (n q sec : String) (rs : List String) (ch : Option Bool) :
    parseItem (Json.obj [("name", Json.str n), ("quantity", Json.str q),
      ("section", Json.str sec), ("raw_sources", Json.arr (rs.map Json.str)),
      ("confirmed_have", optBoolToJson ch)]) = some ⟨n, q, sec, rs, ch⟩ := by
  simp [parseItem, lookupLast, asStr, asStrList_roundtrip, asOptBool_roundtrip]

theorem processedIngredient_roundtrip (i : ProcessedIngredient) :
    parseItem (processedIngredientToJson i) = some i := by
  cases i
  exact parseItem_canonical _ _ _ _ _

theorem recipeData_roundtrip (r : RecipeData) :
    recipeDataFromJson (recipeDataToJson r) = some r := by
  simp [recipeDataFromJson, recipeDataToJson, lookupLast, asStr, asStrList_roundtrip]

theorem asIntJson_intCast (n : Int) : asIntJson (Json.num false (n : Rat)) = some n := by
  simp [asIntJson]

theorem sessionFromJson_toJson (s : GrocerySession) :
    sessionFromJson (sessionToJson s) = some s := by
  simp [sessionFromJson, sessionToJson, lookupLast, withDefault, asStr,
    dateTimeFromJson, asIntJson_intCast, asOptStr_roundtrip, asOptBool_roundtrip,
    listFromJson, asLaxBool,
    mapMloop_map_of_roundtrip recipeDataFromJson recipeDataToJson s.recipes []
      (fun a _ => recipeData_roundtrip a),
    mapMloop_map_of_roundtrip rawIngredientFromJson rawIngredientToJson s.extra_items []
      (fun a _ => rawIngredient_roundtrip a),
    mapMloop_map_of_roundtrip parseItem processedIngredientToJson s.processed_ingredients []
      (fun a _ => processedIngredient_roundtrip a)]

theorem storeLookup_overwrite (l : List (String × GrocerySession)) (k : String)
    (v : GrocerySession) : storeLookup (overwrite l k v) k = some v := by
  induction l with
  | nil => simp [overwrite, storeLookup]
  | cons p rest ih =>
    obtain ⟨k', v'⟩ := p
    by_cases hkk : k' = k
    · subst hkk
      simp [overwrite, storeLookup]
    · simp [overwrite, storeLookup, hkk, ih]

theorem save_lookup_self (now : DateTimeIso) (st : Store) (s : GrocerySession) :
    storeLookup (SessionManager.save now st s).1.sessions
      (SessionManager.save now st s).2.id = some (SessionManager.save now st s).2 := by
  unfold SessionManager.save
  exact storeLookup_overwrite st.sessions _ _

theorem removeFinish_empty (c : Consolidator) (now : DateTimeIso) (st : Store)
    (s1 : GrocerySession) (h1 : s1.recipes = []) (h2 : s1.extra_items = []) :
    removeFinish c now st s1 =
      .removed (SessionManager.save now st { s1 with processed_ingredients := [] }).1
               (SessionManager.save now st { s1 with processed_ingredients := [] }).2 := by
  unfold removeFinish
  rw [if_neg (by simp [h1, h2])]

theorem removeFinish_ok (c : Consolidator) (now : DateTimeIso) (st : Store)
    (s1 : GrocerySession) (pis : List ProcessedIngredient)
    (hne : s1.recipes ≠ [] ∨ s1.extra_items ≠ [])
    (hok : c (all_raw s1) = .ok pis) :
    removeFinish c now st s1 =
      .removed (SessionManager.save now st { s1 with processed_ingredients := pis }).1
               (SessionManager.save now st { s1 with processed_ingredients := pis }).2 := by
  unfold removeFinish
  rw [if_pos hne]
  unfold _process_all
  rw [hok]

/-! ## Claims -/

/-- **C1** (corrected).  `format_grocery_list` buckets an ingredient whose
`section` is outside the enumerated set into the catch-all `"Other"`, and
the ingredient appears in the output whenever `"Other"` itself belongs to
the enumerated section list (as it does in the default configuration);
without `"Other"` in the list the emission loop never reaches the catch-all
bucket. -/
theorem c1_formatter_catchall (ings : List ProcessedIngredient)
    (store_sections : List String) (i : ProcessedIngredient)
    (hi : i ∈ ings) (hother : "Other" ∈ store_sections) :
    (i.sectionName ∉ store_sections → resolveSection store_sections i = "Other") ∧
    entryLine i ∈ format_lines ings store_sections := by
  constructor
  · intro h
    simp [resolveSection, h]
  · have hsmem : resolveSection store_sections i ∈ store_sections := by
      unfold resolveSection
      split
      · assumption
      · exact hother
    have hbucket : i ∈ sectionBucket ings store_sections (resolveSection store_sections i) := by
      unfold sectionBucket
      refine List.mem_filter.2 ⟨hi, ?_⟩
      simp
    have hlines : entryLine i ∈
        sectionLines ings store_sections (resolveSection store_sections i) := by
      unfold sectionLines
      rw [if_neg (by intro hempty; rw [hempty] at hbucket; cases hbucket)]
      exact List.mem_cons_of_mem _ (List.mem_cons_of_mem _ (List.mem_map_of_mem _ hbucket))
    unfold format_lines
    exact List.mem_flatten.2
      ⟨sectionLines ings store_sections (resolveSection store_sections i),
       List.mem_map_of_mem _ hsmem, hlines⟩

theorem c1_witness :
    ((⟨"cumin", "1 tsp", "Spices", ["cumin"], none⟩ : ProcessedIngredient) ∈
        ([⟨"cumin", "1 tsp", "Spices", ["cumin"], none⟩] : List ProcessedIngredient) ∧
      "Other" ∈ defaultStoreSections) ∧
    (((⟨"cumin", "1 tsp", "Spices", ["cumin"], none⟩ :
          ProcessedIngredient).sectionName ∉ defaultStoreSections →
        resolveSection defaultStoreSections ⟨"cumin", "1 tsp", "Spices", ["cumin"], none⟩ =
          "Other") ∧
      entryLine ⟨"cumin", "1 tsp", "Spices", ["cumin"], none⟩ ∈
        format_lines [⟨"cumin", "1 tsp", "Spices", ["cumin"], none⟩] defaultStoreSections) :=
  ⟨⟨by decide, by decide⟩,
   c1_formatter_catchall _ _ _ (by decide) (by decide)⟩

/-- **C1 counterexample**: with enumerated sections
`["Produce", "Dairy & Eggs"]` (no `"Other"`), the item in the unlisted
section `"Spices"` does not appear in the formatted output — it is silently
dropped, against the claim. -/
theorem c1_counterexample :
    entryLine ⟨"cumin", "1 tsp", "Spices", ["cumin"], none⟩ ∉
      format_lines [⟨"apple", "2", "Produce", ["apple"], none⟩,
                    ⟨"cumin", "1 tsp", "Spices", ["cumin"], none⟩]
        ["Produce", "Dairy & Eggs"] ∧
    strContains
      (format_grocery_list [⟨"apple", "2", "Produce", ["apple"], none⟩,
                            ⟨"cumin", "1 tsp", "Spices", ["cumin"], none⟩]
        ["Produce", "Dairy & Eggs"]) "cumin" = false := by
  decide

/-- **C2** (confirmed).  When the response parses to a JSON array, one
malformed item makes `process` raise `ProcessorError` with zero records
returned, and a successful call returns exactly one record per array
element. -/
theorem c2_all_or_nothing (raw : String) (items : List Json)
    (h : jsonLoads (extract_json raw) = some (Json.arr items)) :
    ((∃ j ∈ items, parseItem j = none) →
        ∃ e, processResponse raw = Except.error e) ∧
    (∀ l, processResponse raw = Except.ok l → l.length = items.length) := by
  have hPR : processResponse raw =
      (match parseItems items with
       | .ok l => .ok l
       | .error e => .error ⟨"LLM returned unexpected ingredient format: " ++ e⟩) := by
    unfold processResponse
    rw [h]
    rfl
  constructor
  · rintro ⟨j, hj, hbad⟩
    obtain ⟨msg, hmsg⟩ := parseItems_error_of_malformed items j hj hbad
    refine ⟨⟨"LLM returned unexpected ingredient format: " ++ msg⟩, ?_⟩
    rw [hPR, hmsg]
  · intro l hl
    cases hp : parseItems items with
    | error e =>
      rw [hPR, hp] at hl
      simp at hl
    | ok l2 =>
      rw [hPR, hp] at hl
      have h2 : l2 = l := by simpa using hl
      subst h2
      exact parseItems_length items l2 hp

theorem c2_witness :
    jsonLoads (extract_json "[\x7b\"name\": \"salt\"\x7d]") =
        some (Json.arr [Json.obj [("name", Json.str "salt")]]) ∧
    ((∃ j ∈ [Json.obj [("name", Json.str "salt")]], parseItem j = none) →
        ∃ e, processResponse "[\x7b\"name\": \"salt\"\x7d]" = Except.error e) ∧
    (∀ l, processResponse "[\x7b\"name\": \"salt\"\x7d]" = Except.ok l →
        l.length = 1) := by
  have h : jsonLoads (extract_json "[\x7b\"name\": \"salt\"\x7d]") =
      some (Json.arr [Json.obj [("name", Json.str "salt")]]) := by rfl
  exact ⟨h, c2_all_or_nothing _ _ h⟩

/-- **C3 (amended)**.  Validation does not require `raw_sources` to be
non-empty: an item whose `raw_sources` is the empty array passes
`ProcessedIngredient(**item)` and yields a record with no traceable raw
lines.  Non-emptiness of `sources` rests on the model following the prompt,
not on any check in the code. -/
theorem c3_empty_sources_accepted (n q s : String) :
    parseItem (Json.obj [("name", Json.str n), ("quantity", Json.str q),
      ("section", Json.str s), ("raw_sources", Json.arr [])]) =
      some ⟨n, q, s, [], none⟩ := by
  rfl

/-- **C3 counterexample**: a successful `process` call returns a record
whose `raw_sources` is empty — the empty-`sources` item is accepted, not
rejected. -/
theorem c3_counterexample :
    processResponse
        "[\x7b\"name\": \"salt\", \"quantity\": \"1 tsp\", \"section\": \"Spices & Seasonings\", \"raw_sources\": []\x7d]" =
      Except.ok [⟨"salt", "1 tsp", "Spices & Seasonings", [], none⟩] := by
  rfl

/-- **C6** (confirmed).  With a non-empty pantry, `run_pantry_check` sets
`confirmed_have := True` for every ingredient that was unknown and whose
name is in the pantry, the final result keeps that value, and no such
ingredient is in `to_check`, the list the interactive loop prompts for —
only ingredients still unknown after auto-resolution are prompted. -/
theorem c6_pantry_auto_resolution (ings : List ProcessedIngredient)
    (pantry : List String) (answers : List String) (k : Nat) (i : ProcessedIngredient)
    (hne : pantry ≠ [])
    (hk : ings[k]? = some i)
    (hu : i.confirmed_have = none)
    (hm : i.name ∈ pantry) :
    (autoMark ings pantry)[k]? = some { i with confirmed_have := some true } ∧
    (∀ out, run_pantry_check ings pantry answers = some out →
      out[k]? = some { i with confirmed_have := some true }) ∧
    (∀ j ∈ promptedIngredients ings pantry, j.name ∉ pantry) := by
  have hmark : (autoMark ings pantry)[k]? = some { i with confirmed_have := some true } := by
    rw [autoMark_ne ings pantry hne, List.getElem?_map, hk]
    simp [hu, hm]
  refine ⟨hmark, ?_, fun j hj => (prompted_not_pantry ings pantry hne j hj).2⟩
  intro out hout
  simp only [run_pantry_check] at hout
  split at hout
  · have hout2 : out = autoMark ings pantry := by
      injection hout with h'
      exact h'.symm
    rw [hout2]
    exact hmark
  · obtain ⟨pair, hpair, hfst⟩ := Option.map_eq_some'.1 hout
    rw [← hfst]
    exact promptPass_preserves (autoMark ings pantry) answers pair.1 pair.2
      (by rw [hpair]) k _ hmark rfl

theorem c6_witness :
    ((["oil"] : List String) ≠ [] ∧
      ([⟨"oil", "1 cup", "Produce", ["o"], (none : Option Bool)⟩] :
          List ProcessedIngredient)[0]? = some ⟨"oil", "1 cup", "Produce", ["o"], none⟩ ∧
      (⟨"oil", "1 cup", "Produce", ["o"], (none : Option Bool)⟩ :
          ProcessedIngredient).confirmed_have = none ∧
      "oil" ∈ (["oil"] : List String)) ∧
    ((autoMark [⟨"oil", "1 cup", "Produce", ["o"], none⟩] ["oil"])[0]? =
        some ⟨"oil", "1 cup", "Produce", ["o"], some true⟩ ∧
      (∀ out, run_pantry_check [⟨"oil", "1 cup", "Produce", ["o"], none⟩] ["oil"] [] =
          some out → out[0]? = some ⟨"oil", "1 cup", "Produce", ["o"], some true⟩) ∧
      (∀ j ∈ promptedIngredients [⟨"oil", "1 cup", "Produce", ["o"], none⟩] ["oil"],
        j.name ∉ (["oil"] : List String))) :=
  ⟨⟨by decide, by decide, rfl, by decide⟩,
   c6_pantry_auto_resolution [⟨"oil", "1 cup", "Produce", ["o"], none⟩] ["oil"] [] 0
     ⟨"oil", "1 cup", "Produce", ["o"], none⟩
     (by decide) (by decide) rfl (by decide)⟩

/-- **C10** (confirmed).  Auto-resolution compares names by exact,
case-sensitive equality and `PantryManager.add` stores names verbatim: an
unknown ingredient whose name equals no pantry entry exactly (even one
differing only in case or surrounding whitespace) is left unmarked and ends
up in `to_check`, the interactively prompted list; a freshly added pantry
name is appended exactly as entered. -/
theorem c10_exact_case_sensitive (ings : List ProcessedIngredient) (pantry : List String)
    (k : Nat) (i : ProcessedIngredient) (items : List PantryItem) (name quantity : String)
    (hk : ings[k]? = some i)
    (hu : i.confirmed_have = none)
    (hnm : i.name ∉ pantry)
    (hnew : ∀ p ∈ items, p.name ≠ name) :
    (autoMark ings pantry)[k]? = some i ∧
    i ∈ promptedIngredients ings pantry ∧
    pantryNames (pantryAdd items name quantity) = pantryNames items ++ [name] := by
  have hmark : (autoMark ings pantry)[k]? = some i := by
    by_cases hne : pantry = []
    · subst hne
      unfold autoMark
      simpa using hk
    · rw [autoMark_ne ings pantry hne, List.getElem?_map, hk]
      simp [hnm]
  refine ⟨hmark, ?_, ?_⟩
  · unfold promptedIngredients
    refine List.mem_filter.2 ⟨?_, by simp [hu]⟩
    exact List.getElem?_mem hmark
  · have hfalse : items.any (fun p => p.name == name) = false := by
      rw [List.any_eq_false]
      intro p hp
      simpa using hnew p hp
    unfold pantryAdd
    rw [hfalse]
    simp [pantryNames]

theorem c10_witness :
    (([⟨"olive oil", "1 cup", "Produce", ["x"], (none : Option Bool)⟩] :
          List ProcessedIngredient)[0]? =
        some ⟨"olive oil", "1 cup", "Produce", ["x"], none⟩ ∧
      (⟨"olive oil", "1 cup", "Produce", ["x"], (none : Option Bool)⟩ :
          ProcessedIngredient).confirmed_have = none ∧
      "olive oil" ∉ (["Olive Oil"] : List String) ∧
      (∀ p ∈ ([] : List PantryItem), p.name ≠ "Butter ")) ∧
    ((autoMark [⟨"olive oil", "1 cup", "Produce", ["x"], none⟩] ["Olive Oil"])[0]? =
        some ⟨"olive oil", "1 cup", "Produce", ["x"], none⟩ ∧
      (⟨"olive oil", "1 cup", "Produce", ["x"], none⟩ : ProcessedIngredient) ∈
        promptedIngredients [⟨"olive oil", "1 cup", "Produce", ["x"], none⟩] ["Olive Oil"] ∧
      pantryNames (pantryAdd [] "Butter " "") = pantryNames [] ++ ["Butter "]) :=
  ⟨⟨by decide, rfl, by decide, by decide⟩,
   c10_exact_case_sensitive [⟨"olive oil", "1 cup", "Produce", ["x"], none⟩] ["Olive Oil"] 0
     ⟨"olive oil", "1 cup", "Produce", ["x"], none⟩ [] "Butter " ""
     (by decide) rfl (by decide) (by decide)⟩

/-- **C4 (amended)**.  Only the JSON-decode failure branch carries the raw
response in the `ProcessorError` text; a response that parses as JSON but
fails per-item validation raises an error carrying the validation message
instead (`processor.py` line 51 interpolates the exception only). -/
theorem c4_parse_failure_carries_raw (raw : String)
    (h : jsonLoads (extract_json raw) = none) :
    ∃ e, processResponse raw = Except.error e ∧ strContains e.msg raw = true := by
  refine ⟨⟨"Failed to parse LLM response as JSON: " ++ jsonDecodeErrorMsg ++
      "\n\nRaw response:\n" ++ raw⟩, ?_, ?_⟩
  · unfold processResponse
    rw [h]
  · exact strContains_suffix
      ("Failed to parse LLM response as JSON: " ++ jsonDecodeErrorMsg ++
        "\n\nRaw response:\n") raw

theorem c4_witness :
    jsonLoads (extract_json "not json at all") = none ∧
    ∃ e, processResponse "not json at all" = Except.error e ∧
      strContains e.msg "not json at all" = true := by
  have h : jsonLoads (extract_json "not json at all") = none := by rfl
  exact ⟨h, c4_parse_failure_carries_raw _ h⟩

/-- **C4 counterexample**: the response `"[0]"` parses as JSON but fails
item validation; the raised error's message does not contain the raw
response text. -/
theorem c4_counterexample :
    processResponse "[0]" =
        Except.error
          ⟨"LLM returned unexpected ingredient format: argument after ** must be a mapping"⟩ ∧
    strContains
        "LLM returned unexpected ingredient format: argument after ** must be a mapping"
        "[0]" = false :=
  ⟨rfl, rfl⟩

/-- **C5** (confirmed).  A `recipe remove` / `item remove` that leaves zero
recipes and zero extra items clears `processed_ingredients` and persists
without consulting the consolidator (the result is the same for any two
consolidators); a removal leaving at least one recipe or extra item re-runs
full consolidation and persists the re-consolidated session. -/
theorem c5_remove_clear_or_reconsolidate
    (c c2 : Consolidator) (now : DateTimeIso) (st : Store) (s : GrocerySession)
    (index : Int) (hlo : 1 ≤ index) :
    (index ≤ (s.recipes.length : Int) →
      ((recipeRemoveSession s index).recipes = [] ∧
          (recipeRemoveSession s index).extra_items = [] →
        recipe_remove c now st s index = recipe_remove c2 now st s index ∧
        ∃ st' s', recipe_remove c now st s index = .removed st' s' ∧
          s'.processed_ingredients = [] ∧ storeLookup st'.sessions s'.id = some s') ∧
      (∀ pis, ((recipeRemoveSession s index).recipes ≠ [] ∨
          (recipeRemoveSession s index).extra_items ≠ []) →
        c (all_raw (recipeRemoveSession s index)) = .ok pis →
        ∃ st' s', recipe_remove c now st s index = .removed st' s' ∧
          s'.processed_ingredients = pis ∧ storeLookup st'.sessions s'.id = some s')) ∧
    (index ≤ ((manualItems s).length : Int) →
      ((itemRemoveSession s index).recipes = [] ∧
          (itemRemoveSession s index).extra_items = [] →
        item_remove c now st s index = item_remove c2 now st s index ∧
        ∃ st' s', item_remove c now st s index = .removed st' s' ∧
          s'.processed_ingredients = [] ∧ storeLookup st'.sessions s'.id = some s') ∧
      (∀ pis, ((itemRemoveSession s index).recipes ≠ [] ∨
          (itemRemoveSession s index).extra_items ≠ []) →
        c (all_raw (itemRemoveSession s index)) = .ok pis →
        ∃ st' s', item_remove c now st s index = .removed st' s' ∧
          s'.processed_ingredients = pis ∧ storeLookup st'.sessions s'.id = some s')) := by
  constructor
  · intro hhi
    have hrr : ∀ c3 : Consolidator, recipe_remove c3 now st s index =
        removeFinish c3 now st (recipeRemoveSession s index) := by
      intro c3
      unfold recipe_remove
      rw [if_neg (by omega)]
    constructor
    · rintro ⟨h1, h2⟩
      refine ⟨?_, ?_⟩
      · rw [hrr c, hrr c2, removeFinish_empty c now st _ h1 h2,
          removeFinish_empty c2 now st _ h1 h2]
      · refine ⟨_, _, by rw [hrr c, removeFinish_empty c now st _ h1 h2], rfl, ?_⟩
        exact save_lookup_self now st _
    · intro pis hne hok
      refine ⟨_, _, by rw [hrr c, removeFinish_ok c now st _ pis hne hok], rfl, ?_⟩
      exact save_lookup_self now st _
  · intro hhi
    have hir : ∀ c3 : Consolidator, item_remove c3 now st s index =
        removeFinish c3 now st (itemRemoveSession s index) := by
      intro c3
      unfold item_remove
      rw [if_neg (by omega)]
    constructor
    · rintro ⟨h1, h2⟩
      refine ⟨?_, ?_⟩
      · rw [hir c, hir c2, removeFinish_empty c now st _ h1 h2,
          removeFinish_empty c2 now st _ h1 h2]
      · refine ⟨_, _, by rw [hir c, removeFinish_empty c now st _ h1 h2], rfl, ?_⟩
        exact save_lookup_self now st _
    · intro pis hne hok
      refine ⟨_, _, by rw [hir c, removeFinish_ok c now st _ pis hne hok], rfl, ?_⟩
      exact save_lookup_self now st _

theorem c5_witness :
    (∃ st' s',
      recipe_remove (fun _ => Except.error ⟨"boom"⟩) ⟨"t"⟩ ⟨[], none⟩
          ⟨1, "sid", none, ⟨"t"⟩, ⟨"t"⟩, [⟨"Pasta", "u", ["x"], 1⟩], [],
           [⟨"old", "1", "Produce", ["o"], none⟩], false, none⟩ 1 =
        RemoveResult.removed st' s' ∧
      s'.processed_ingredients = [] ∧ storeLookup st'.sessions s'.id = some s') ∧
    (∃ st' s',
      item_remove (fun _ => Except.ok [⟨"new", "2", "Produce", ["n"], none⟩]) ⟨"t"⟩ ⟨[], none⟩
          ⟨1, "sid2", none, ⟨"t"⟩, ⟨"t"⟩, [],
           [⟨"2 eggs", "[added manually]", ""⟩, ⟨"milk", "[staple]", ""⟩],
           [⟨"old", "1", "Produce", ["o"], none⟩], false, none⟩ 1 =
        RemoveResult.removed st' s' ∧
      s'.processed_ingredients = [⟨"new", "2", "Produce", ["n"], none⟩] ∧
      storeLookup st'.sessions s'.id = some s') := by
  constructor
  · have h := c5_remove_clear_or_reconsolidate
      (fun _ => Except.error ⟨"boom"⟩) (fun _ => Except.error ⟨"boom"⟩) ⟨"t"⟩ ⟨[], none⟩
      ⟨1, "sid", none, ⟨"t"⟩, ⟨"t"⟩, [⟨"Pasta", "u", ["x"], 1⟩], [],
       [⟨"old", "1", "Produce", ["o"], none⟩], false, none⟩ 1 (by decide)
    exact ((h.1 (by decide)).1 (by decide)).2
  · have h := c5_remove_clear_or_reconsolidate
      (fun _ => Except.ok [⟨"new", "2", "Produce", ["n"], none⟩])
      (fun _ => Except.ok [⟨"new", "2", "Produce", ["n"], none⟩]) ⟨"t"⟩ ⟨[], none⟩
      ⟨1, "sid2", none, ⟨"t"⟩, ⟨"t"⟩, [],
       [⟨"2 eggs", "[added manually]", ""⟩, ⟨"milk", "[staple]", ""⟩],
       [⟨"old", "1", "Produce", ["o"], none⟩], false, none⟩ 1 (by decide)
    exact (h.2 (by decide)).2 [⟨"new", "2", "Produce", ["n"], none⟩] (by decide) rfl

/-- **C7** (confirmed).  When consolidation raises `ProcessorError` after a
successful add, the session is still persisted containing the newly added
entry, and `processed_ingredients` keeps its previous (stale) value: for
`item add`, the saved session's `extra_items` end with the new manual
entry; for the `recipe add` tail, the appended recipes are saved unchanged. -/
theorem c7_failure_keeps_added_data
    (c : Consolidator) (now : DateTimeIso) (st : Store) (s : GrocerySession)
    (name quantity : String) (e e2 : ProcessorError)
    (hfail : c (all_raw (itemAddSession s name quantity)) = .error e)
    (hfail2 : c (all_raw s) = .error e2) :
    ((item_add c now st s name quantity).2.extra_items =
        s.extra_items ++ [⟨pyStrip (quantity ++ " " ++ name), "[added manually]", ""⟩] ∧
      (item_add c now st s name quantity).2.processed_ingredients =
        s.processed_ingredients ∧
      storeLookup (item_add c now st s name quantity).1.sessions s.id =
        some (item_add c now st s name quantity).2) ∧
    ((recipe_add_finish c now st s).2.recipes = s.recipes ∧
      (recipe_add_finish c now st s).2.processed_ingredients = s.processed_ingredients ∧
      storeLookup (recipe_add_finish c now st s).1.sessions s.id =
        some (recipe_add_finish c now st s).2) := by
  have hIA : item_add c now st s name quantity =
      SessionManager.save now st (itemAddSession s name quantity) := by
    unfold item_add _process_all
    rw [hfail]
  have hRA : recipe_add_finish c now st s = SessionManager.save now st s := by
    unfold recipe_add_finish _process_all
    rw [hfail2]
  refine ⟨⟨?_, ?_, ?_⟩, ⟨?_, ?_, ?_⟩⟩
  · rw [hIA]; rfl
  · rw [hIA]; rfl
  · rw [hIA]; exact save_lookup_self now st _
  · rw [hRA]; rfl
  · rw [hRA]; rfl
  · rw [hRA]; exact save_lookup_self now st _

theorem c7_witness :
    ((fun _ => Except.error ⟨"boom"⟩ : Consolidator)
        (all_raw (itemAddSession
          ⟨1, "sid", none, ⟨"t"⟩, ⟨"t"⟩, [], [], [⟨"old", "1", "Produce", ["o"], none⟩],
           false, none⟩ "eggs" "1 dozen")) = Except.error ⟨"boom"⟩ ∧
      (fun _ => Except.error ⟨"boom"⟩ : Consolidator)
        (all_raw ⟨1, "sid", none, ⟨"t"⟩, ⟨"t"⟩, [], [],
          [⟨"old", "1", "Produce", ["o"], none⟩], false, none⟩) = Except.error ⟨"boom"⟩) ∧
    ((item_add (fun _ => Except.error ⟨"boom"⟩) ⟨"t2"⟩ ⟨[], none⟩
        ⟨1, "sid", none, ⟨"t"⟩, ⟨"t"⟩, [], [], [⟨"old", "1", "Produce", ["o"], none⟩],
         false, none⟩ "eggs" "1 dozen").2.extra_items =
        [] ++ [⟨pyStrip ("1 dozen" ++ " " ++ "eggs"), "[added manually]", ""⟩] ∧
      (item_add (fun _ => Except.error ⟨"boom"⟩) ⟨"t2"⟩ ⟨[], none⟩
        ⟨1, "sid", none, ⟨"t"⟩, ⟨"t"⟩, [], [], [⟨"old", "1", "Produce", ["o"], none⟩],
         false, none⟩ "eggs" "1 dozen").2.processed_ingredients =
        [⟨"old", "1", "Produce", ["o"], none⟩] ∧
      storeLookup (item_add (fun _ => Except.error ⟨"boom"⟩) ⟨"t2"⟩ ⟨[], none⟩
        ⟨1, "sid", none, ⟨"t"⟩, ⟨"t"⟩, [], [], [⟨"old", "1", "Produce", ["o"], none⟩],
         false, none⟩ "eggs" "1 dozen").1.sessions "sid" =
        some (item_add (fun _ => Except.error ⟨"boom"⟩) ⟨"t2"⟩ ⟨[], none⟩
        ⟨1, "sid", none, ⟨"t"⟩, ⟨"t"⟩, [], [], [⟨"old", "1", "Produce", ["o"], none⟩],
         false, none⟩ "eggs" "1 dozen").2) ∧
    ((recipe_add_finish (fun _ => Except.error ⟨"boom"⟩) ⟨"t2"⟩ ⟨[], none⟩
        ⟨1, "sid", none, ⟨"t"⟩, ⟨"t"⟩, [], [], [⟨"old", "1", "Produce", ["o"], none⟩],
         false, none⟩).2.recipes = [] ∧
      (recipe_add_finish (fun _ => Except.error ⟨"boom"⟩) ⟨"t2"⟩ ⟨[], none⟩
        ⟨1, "sid", none, ⟨"t"⟩, ⟨"t"⟩, [], [], [⟨"old", "1", "Produce", ["o"], none⟩],
         false, none⟩).2.processed_ingredients = [⟨"old", "1", "Produce", ["o"], none⟩] ∧
      storeLookup (recipe_add_finish (fun _ => Except.error ⟨"boom"⟩) ⟨"t2"⟩ ⟨[], none⟩
        ⟨1, "sid", none, ⟨"t"⟩, ⟨"t"⟩, [], [], [⟨"old", "1", "Produce", ["o"], none⟩],
         false, none⟩).1.sessions "sid" =
        some (recipe_add_finish (fun _ => Except.error ⟨"boom"⟩) ⟨"t2"⟩ ⟨[], none⟩
        ⟨1, "sid", none, ⟨"t"⟩, ⟨"t"⟩, [], [], [⟨"old", "1", "Produce", ["o"], none⟩],
         false, none⟩).2) :=
  ⟨⟨rfl, rfl⟩,
   c7_failure_keeps_added_data (fun _ => Except.error ⟨"boom"⟩) ⟨"t2"⟩ ⟨[], none⟩
     ⟨1, "sid", none, ⟨"t"⟩, ⟨"t"⟩, [], [], [⟨"old", "1", "Produce", ["o"], none⟩],
      false, none⟩ "eggs" "1 dozen" ⟨"boom"⟩ ⟨"boom"⟩ rfl rfl⟩

/-- **C8** (confirmed).  Serializing a session to its persisted JSON form
and validating it back yields a session with the same `id`, `version` and
`finalized` flag, and element-wise equal `recipes`, `extra_items` and
`processed_ingredients` (the whole record in fact round-trips). -/
theorem c8_session_roundtrip (s : GrocerySession) :
    ∃ s', sessionFromJson (sessionToJson s) = some s' ∧
      s'.id = s.id ∧ s'.version = s.version ∧ s'.finalized = s.finalized ∧
      s'.recipes = s.recipes ∧ s'.extra_items = s.extra_items ∧
      s'.processed_ingredients = s.processed_ingredients :=
  ⟨s, sessionFromJson_toJson s, rfl, rfl, rfl, rfl, rfl, rfl⟩

/-- **C9** (confirmed).  `_make_id` depends only on the date and the
slugified name, so two `new` calls on the same date with the same (or both
absent) name produce equal ids; the second call's save overwrites the first
session's stored record at that id and repoints the current-session
pointer, leaving the first session's record irretrievable. -/
theorem c9_same_day_id_collision (st : Store) (date : String)
    (now1 now2 : DateTimeIso) (staples1 staples2 : List Staple)
    (name : Option String) :
    (SessionManager.new st date now1 staples1 name).1.id =
      (SessionManager.new (SessionManager.new st date now1 staples1 name).2 date now2
        staples2 name).1.id ∧
    storeLookup (SessionManager.new (SessionManager.new st date now1 staples1 name).2 date
        now2 staples2 name).2.sessions
        (SessionManager.new st date now1 staples1 name).1.id =
      some (SessionManager.new (SessionManager.new st date now1 staples1 name).2 date now2
        staples2 name).1 ∧
    (SessionManager.new (SessionManager.new st date now1 staples1 name).2 date now2
        staples2 name).2.current =
      some (SessionManager.new (SessionManager.new st date now1 staples1 name).2 date now2
        staples2 name).1.id :=
  ⟨rfl, storeLookup_overwrite _ _ _, rfl⟩

end FancyGroceryList
